import Mathlib

/-!
Verification of the `serial-prober` module (`src/serial-prober.js`).

The JavaScript source is shallowly embedded: JS strings are modelled as
their character sequences (`List Char`), Node `Buffer`s as `List Nat`
(byte sequences), and the event-driven control flow of the `SerialProber`
class as explicit state passing over a `ProberState` record.  Timers are
modelled by recording their scheduled delay in the state; the arrival of
serial data is modelled as an explicit list of `(time, chunk)` events.
-/

namespace SerialProber

/-- A JS string, modelled as its sequence of characters. -/
abbrev Str := List Char

/-- One byte of a Node `Buffer`. -/
abbrev Byte := Nat

/-- A byte buffer / one `data` event chunk (`Buffer`). -/
abbrev Chunk := List Byte

/-- `Buffer.prototype.includes` (line 113 `data.includes(match)`): does
`needle` occur as a contiguous run of bytes anywhere inside the buffer? -/
def bufIncludes (needle : Chunk) : Chunk → Bool
  | [] => needle.isEmpty
  | b :: rest => needle.isPrefixOf (b :: rest) || bufIncludes needle rest

/-- `String.prototype.startsWith` (lines 146 and 171). -/
def jsStartsWith (s pat : Str) : Bool := pat.isPrefixOf s

/-- `String.prototype.replace` with a plain-string pattern (lines 147 and
172): replace the first occurrence of `pat` by `rep`, or leave the string
unchanged when `pat` does not occur. -/
def jsReplaceFirst (pat rep : Str) : Str → Str
  | [] => if pat.isPrefixOf ([] : Str) then rep else []
  | c :: rest =>
    if pat.isPrefixOf (c :: rest) then rep ++ (c :: rest).drop pat.length
    else c :: jsReplaceFirst pat rep rest

/-- Lines 146-148 / 171-173: under OSX, rewrite a `/dev/tty.usbXXX` path to
`/dev/cu.usbXXX`; any other path is left unchanged. -/
def normalizeComName (s : Str) : Str :=
  if jsStartsWith s "/dev/tty.usb".data then
    jsReplaceFirst "/dev/tty".data "/dev/cu".data s
  else s

/-- A JS value stored under a metadata key of a port descriptor.  The code
(lines 177-184) only ever asks whether the value exists and whether
`typeof` it is `'string'`, so all non-string values are collapsed into a
single constructor. -/
inductive JsValue where
  | str (s : Str)
  | other
deriving DecidableEq, Repr

/-- A port descriptor as returned by `SerialPort.list()`: the `comName`
path plus the remaining own properties (vendor/product ids and the like). -/
structure Port where
  comName : Str
  props : List (Str × JsValue)
deriving DecidableEq, Repr

/-- JS property access `port[key]` combined with
`port.hasOwnProperty(key)` (lines 177-184): `comName` is itself an own
string-valued property of the descriptor. -/
def Port.getProp (p : Port) (key : Str) : Option JsValue :=
  if key = "comName".data then some (.str p.comName) else p.props.lookup key

/-- An abstract matcher standing for `port[key].match(re)` (line 185):
the truth value of one regular-expression (or string) pattern on a string. -/
abbrev Matcher := Str → Bool

/-- One filter object of `this.param.filter`: `Object.entries` of a map
from metadata key to pattern (lines 174-189). -/
abbrev FilterGroup := List (Str × Matcher)

/-- The caller-supplied probe specification `this.param` (constructor,
line 21). -/
structure Param where
  name : Str
  baudRate : Nat
  probeCmd : Chunk
  probeRsp : Chunk
  filter : List FilterGroup

/-- Lines 177-188, one key/pattern entry of a filter group: the key must be
an own property of the descriptor, its value must be a string, and the
string must match the pattern; otherwise the whole group fails. -/
def keyMatches (p : Port) (kv : Str × Matcher) : Bool :=
  match p.getProp kv.1 with
  | some (.str s) => kv.2 s
  | _ => false

/-- Lines 174-194, the loop body of `serialPortMatchesFilter` after path
normalization: AND over the entries of a group, OR over the groups. -/
def matchesGroups (param : Param) (p : Port) : Bool :=
  param.filter.any (fun g => g.all (keyMatches p))

/-- Lines 146-148 / 171-173 applied to a whole descriptor: the in-place
mutation of `port.comName` is modelled as a functional update. -/
def normalizePort (p : Port) : Port :=
  { p with comName := normalizeComName p.comName }

/-- `SerialProber.serialPortMatchesFilter` (lines 166-195).  The function
mutates `port.comName` (normalization) before evaluating the filter, so the
model returns the mutated descriptor alongside the boolean verdict. -/
def serialPortMatchesFilter (param : Param) (p : Port) : Bool × Port :=
  let q := normalizePort p
  (matchesGroups param q, q)

/-- The state of one opened `SerialPort` object: the code only ever
observes `isOpen` (line 83). -/
structure SP where
  isOpen : Bool
deriving DecidableEq, Repr

/-- The mutable fields of a `SerialProber` instance that the probe state
machine touches: `this.portName` (line 36), `this.lockAttempt` (line 37),
`this.serialPort` (line 50) and `this.lockTimer` (line 62).  A pending
timer is recorded together with its scheduled delay in milliseconds. -/
structure ProberState where
  portName : Option Str
  lockAttempt : Nat
  serialPort : Option SP
  lockTimer : Option Nat
deriving DecidableEq, Repr

/-- Line 16. -/
def MAX_OPEN_ATTEMPTS : Nat := 5

/-- The test `this.serialPort && this.serialPort.isOpen` (line 83). -/
def handleOpen (s : ProberState) : Bool :=
  match s.serialPort with
  | some sp => sp.isOpen
  | none => false

/-- `SerialProber.close` (lines 82-89): close and drop the handle when it
is open, otherwise do nothing.  Note that `this.lockTimer` is not touched. -/
def close (s : ProberState) : ProberState :=
  if handleOpen s then { s with serialPort := none, portName := none } else s

/-- The timeout message of `probe` (lines 102-103). -/
def timeoutMsg (param : Param) (portName : Str) : Str :=
  "SerialProber: timeout: ".data ++ param.name ++
    " dongle not detected on ".data ++ portName

/-- Outcome of one `probe` call: either the promise resolves at the time
of the matching `data` event, or the 500 ms timer fires and rejects with
the timeout message. -/
inductive ProbeOutcome where
  | ok (t : Nat)
  | timeout (t : Nat) (msg : Str)
deriving DecidableEq, Repr

/-- Lines 100-123: the `data` handler accumulates every chunk into `data`
and resolves as soon as `probeRsp` occurs in the accumulated buffer; the
timer set at line 101 rejects at the deadline.  Events are the `(time,
chunk)` data arrivals in arrival order; an event at or after the deadline
is beaten by the timer, which was registered first. -/
def probeTimedGo (rsp : Chunk) (deadline : Nat) (msg : Str) (buffer : Chunk) :
    List (Nat × Chunk) → ProbeOutcome
  | [] => .timeout deadline msg
  | (t, c) :: rest =>
    if deadline ≤ t then .timeout deadline msg
    else
      let data := buffer ++ c
      if bufIncludes rsp data then .ok t
      else probeTimedGo rsp deadline msg data rest

/-- `SerialProber.probe` (lines 99-124) for a given port name and sequence
of timed data arrivals. -/
def probeTimed (param : Param) (portName : Str) (events : List (Nat × Chunk)) :
    ProbeOutcome :=
  probeTimedGo param.probeRsp 500 (timeoutMsg param portName) [] events

/-- The pure detection core of `probe` (lines 108-117), with time left out:
fold over the arriving chunks, keeping the accumulated buffer, and return
the index of the first chunk whose arrival makes `rsp` occur in the
buffer (`none` when no arrival ever does). -/
def probeScanGo (rsp : Chunk) (buffer : Chunk) : List Chunk → Option Nat
  | [] => none
  | c :: rest =>
    let data := buffer ++ c
    if bufIncludes rsp data then some 0
    else (probeScanGo rsp data rest).map (· + 1)

/-- Detection over a whole arrival sequence, starting (line 109) from the
empty buffer `Buffer.from([])`. -/
def probeScan (rsp : Chunk) (chunks : List Chunk) : Option Nat :=
  probeScanGo rsp [] chunks

/-- The host-visible outcome of one `new SerialPort(...)` attempt
(lines 50-79): the open callback reports a lock failure, some other error,
or success — in which case the subsequent probe sees the given data
events. -/
inductive AttemptOutcome where
  | lockHeld
  | otherErr (msg : Str)
  | opened (events : List (Nat × Chunk))

/-- The rejection reasons of `open` (lines 60, 68, 77): the lock error
after the attempt ceiling, the host error from a non-lock open failure,
and the probe timeout message. -/
inductive OpenErr where
  | lockTimeout
  | openDevice (msg : Str)
  | probeFail (msg : Str)
deriving DecidableEq, Repr

/-- Result of one pass through the `tryToOpen` callback body: either the
promise settles, or a retry was scheduled (line 62) with `lockTimer`
pending. -/
inductive StepResult where
  | done (r : Except OpenErr SP) (s : ProberState)
  | retryScheduled (s : ProberState)

/-- One execution of the `tryToOpen` callback body (lines 47-80) from
state `s` when the host reports outcome `o`.  `new SerialPort` assigns
`this.serialPort` in every case; on a lock failure the counter is
incremented first and compared against `MAX_OPEN_ATTEMPTS` (lines 57-65);
on success the probe runs on the open handle (lines 72-78). -/
def tryToOpenStep (param : Param) (s : ProberState) (o : AttemptOutcome) :
    StepResult :=
  match o with
  | .lockHeld =>
    let s1 := { s with serialPort := some ⟨false⟩,
                       lockAttempt := s.lockAttempt + 1 }
    if MAX_OPEN_ATTEMPTS ≤ s1.lockAttempt then
      .done (.error .lockTimeout) s1
    else
      .retryScheduled { s1 with lockTimer := some 1000 }
  | .otherErr m =>
    .done (.error (.openDevice m)) { s with serialPort := some ⟨false⟩ }
  | .opened events =>
    let s1 := { s with serialPort := some ⟨true⟩ }
    match probeTimed param (s1.portName.getD []) events with
    | .ok _ => .done (.ok ⟨true⟩) s1
    | .timeout _ msg => .done (.error (.probeFail msg)) s1

/-- The `setTimeout` callback of line 62 firing: the timer is consumed and
`tryToOpen` runs again. -/
def lockTimerFire (s : ProberState) : ProberState := { s with lockTimer := none }

/-- Repeated `tryToOpen` attempts against a list of host outcomes, one
outcome per `new SerialPort` construction.  Returns the settled value, the
state at settlement and the number of open attempts made; `none` means the
outcome list was exhausted with the promise still pending. -/
def tryToOpenRun (param : Param) :
    ProberState → List AttemptOutcome → Option (Except OpenErr SP × ProberState × Nat)
  | _, [] => none
  | s, o :: rest =>
    match tryToOpenStep param s o with
    | .done r s1 => some (r, s1, 1)
    | .retryScheduled s1 =>
      (tryToOpenRun param (lockTimerFire s1) rest).map
        (fun x => (x.1, x.2.1, x.2.2 + 1))

/-- `SerialProber.open` (lines 32-45): record the port name, reset the
lock-attempt counter, run `tryToOpen`, and on any rejection call `close`
before the error is surfaced to the caller (lines 40-44). -/
def openModel (param : Param) (portName : Str) (outs : List AttemptOutcome)
    (s : ProberState) : Option (Except OpenErr SP × ProberState × Nat) :=
  let s0 := { s with portName := some portName, lockAttempt := 0 }
  match tryToOpenRun param s0 outs with
  | none => none
  | some (.ok sp, s1, n) => some (.ok sp, s1, n)
  | some (.error e, s1, n) => some (.error e, close s1, n)

/-- One element of the array resolved by `probeAll` (lines 153-157); the
`prober` field is the `this` object itself and is omitted. -/
structure ProbeResult where
  port : Port
  serialPort : SP
deriving DecidableEq, Repr

/-- The per-port loop body of `probeAll` (lines 141-162): normalize the
path, filter, and — for a passing port — `await this.open`, pushing a
result on success and swallowing the error otherwise.  The outcome of
`this.open` on a given path is supplied by `openFn`; alongside the result
list the model also returns the list of paths actually passed to `open`. -/
def probeAllGo (param : Param) (openFn : Str → Except OpenErr SP) :
    List Port → List ProbeResult × List Str
  | [] => ([], [])
  | port :: rest =>
    let port1 := normalizePort port
    let mp := serialPortMatchesFilter param port1
    if mp.1 then
      match openFn mp.2.comName with
      | .ok sp =>
        let r := probeAllGo param openFn rest
        (⟨mp.2, sp⟩ :: r.1, mp.2.comName :: r.2)
      | .error _ =>
        let r := probeAllGo param openFn rest
        (r.1, mp.2.comName :: r.2)
    else
      probeAllGo param openFn rest

/-- `SerialProber.probeAll` (lines 138-164): when `SerialPort.list()`
itself rejects, the rejection propagates; otherwise the scan never
rejects and resolves to the successful results. -/
def probeAll (param : Param) (openFn : Str → Except OpenErr SP) :
    Except Str (List Port) → Except Str (List ProbeResult)
  | .error e => .error e
  | .ok ports => .ok (probeAllGo param openFn ports).1

/-- A concrete probe specification used as a witness instance: probe
response `[1, 2, 3]`, and the two filter groups of the spec's filter
example, with matchers standing for the regexes `^FTDI$` and `^CP210`. -/
def pEx : Param where
  name := "Test Dongle".data
  baudRate := 115200
  probeCmd := [10]
  probeRsp := [1, 2, 3]
  filter := [[("vendor".data, fun s => s == "FTDI".data)],
             [("product".data, fun s => "CP210".data.isPrefixOf s)]]

/-- A freshly constructed prober instance: no port name, no handle, no
pending timer. -/
def initSt : ProberState :=
  { portName := none, lockAttempt := 0, serialPort := none, lockTimer := none }

/-- Witness descriptor: an FTDI device — matches the first filter group of
`pEx` even though `product` is absent. -/
def portF : Port :=
  { comName := "/dev/cu.usbserial-1".data,
    props := [("vendor".data, .str "FTDI".data)] }

/-- Witness descriptor: wrong vendor and a non-string `product` value —
matches neither filter group of `pEx`. -/
def portG : Port :=
  { comName := "/dev/cu.usbserial-2".data,
    props := [("vendor".data, .str "Unknown".data),
              ("product".data, .other)] }

/-- Witness descriptor: an FTDI device on a port whose open fails under
`openFnEx`. -/
def portT : Port :=
  { comName := "/dev/cu.usbserial-9".data,
    props := [("vendor".data, .str "FTDI".data)] }

/-- A host on which only `/dev/cu.usbserial-1` opens and probes
successfully; every other port fails with a probe timeout. -/
def openFnEx : Str → Except OpenErr SP := fun s =>
  if s = "/dev/cu.usbserial-1".data then .ok ⟨true⟩
  else .error (.probeFail "timeout".data)

/-! ### Basic lemmas about the byte-buffer search -/

/-- `Buffer.includes` decides contiguous-substring occurrence. -/
theorem bufIncludes_iff (needle hay : Chunk) :
    bufIncludes needle hay = true ↔ needle <:+: hay := by
  induction hay with
  | nil => simp [bufIncludes, List.isEmpty_iff, List.infix_nil]
  | cons b rest ih =>
    simp [bufIncludes, ih, List.isPrefixOf_iff_prefix, List.infix_cons_iff]

/-- An occurrence inside a buffer stays an occurrence after more bytes are
appended. -/
theorem infixGrow {α : Type} {l a b : List α} (h : l <:+: a) : l <:+: a ++ b := by
  obtain ⟨s, t, rfl⟩ := h
  exact ⟨s, t ++ b, by simp⟩

/-- Characterization of the chunk-fold detection: `probeScanGo` starting
from `buffer` returns `some k` exactly when the `k`-th chunk is the first
whose arrival makes `rsp` occur in the accumulated buffer. -/
theorem probeScanGo_eq_some (rsp : Chunk) (chunks : List Chunk) :
    ∀ (buffer : Chunk) (k : Nat),
      probeScanGo rsp buffer chunks = some k ↔
        k < chunks.length ∧
        rsp <:+: buffer ++ (chunks.take (k + 1)).flatten ∧
        ∀ j < k, ¬ rsp <:+: buffer ++ (chunks.take (j + 1)).flatten := by
  induction chunks with
  | nil => intro buffer k; simp [probeScanGo]
  | cons c rest ih =>
    intro buffer k
    by_cases hc : bufIncludes rsp (buffer ++ c) = true
    · have hinf : rsp <:+: buffer ++ c := (bufIncludes_iff _ _).mp hc
      simp only [probeScanGo, if_pos hc]
      constructor
      · rintro h
        cases h
        refine ⟨Nat.succ_pos _, ?_, ?_⟩
        · simpa using hinf
        · intro j hj; omega
      · rintro ⟨-, -, hmin⟩
        rcases Nat.eq_zero_or_pos k with rfl | hk
        · rfl
        · exact absurd (by simpa using hinf) (by simpa using hmin 0 hk)
    · have hninf : ¬ rsp <:+: buffer ++ c := fun h =>
        hc ((bufIncludes_iff _ _).mpr h)
      simp only [probeScanGo, if_neg hc, Option.map_eq_some']
      constructor
      · rintro ⟨k', hk', rfl⟩
        obtain ⟨hlen, hocc, hmin⟩ := (ih (buffer ++ c) k').mp hk'
        refine ⟨by simpa using Nat.succ_lt_succ hlen, ?_, ?_⟩
        · simpa [List.append_assoc] using hocc
        · intro j hj
          match j with
          | 0 => simpa using hninf
          | j' + 1 =>
            have := hmin j' (by omega)
            simpa [List.append_assoc] using this
      · rintro ⟨hlen, hocc, hmin⟩
        match k with
        | 0 => exact absurd (by simpa using hocc) hninf
        | k' + 1 =>
          refine ⟨k', ?_, rfl⟩
          refine (ih (buffer ++ c) k').mpr ⟨by simpa using hlen, ?_, ?_⟩
          · simpa [List.append_assoc] using hocc
          · intro j hj
            have := hmin (j + 1) (by omega)
            simpa [List.append_assoc] using this

/-- `probeScanGo` returns `none` exactly when no arrival ever produces an
occurrence; for a nonempty arrival list this is occurrence in the full
accumulated buffer. -/
theorem probeScanGo_eq_none (rsp : Chunk) (chunks : List Chunk) :
    ∀ buffer : Chunk, chunks ≠ [] →
      (probeScanGo rsp buffer chunks = none ↔
        ¬ rsp <:+: buffer ++ chunks.flatten) := by
  induction chunks with
  | nil => intro buffer h; exact absurd rfl h
  | cons c rest ih =>
    intro buffer _
    by_cases hc : bufIncludes rsp (buffer ++ c) = true
    · have hinf : rsp <:+: buffer ++ c := (bufIncludes_iff _ _).mp hc
      have hgrow : rsp <:+: (buffer ++ c) ++ rest.flatten := infixGrow hinf
      simp only [probeScanGo, if_pos hc, List.flatten_cons]
      simp [← List.append_assoc, hgrow]
    · have hninf : ¬ rsp <:+: buffer ++ c := fun h =>
        hc ((bufIncludes_iff _ _).mpr h)
      simp only [probeScanGo, if_neg hc, Option.map_eq_none']
      by_cases hr : rest = []
      · subst hr
        simp [probeScanGo, hninf]
      · rw [ih (buffer ++ c) hr]
        constructor
        · intro h hall
          exact h (by simpa [List.append_assoc] using hall)
        · intro h hall
          exact h (by simpa [List.append_assoc] using hall)

/-- Claim C1: for every probe spec and every way the response bytes arrive
(split into N ≥ 1 chunks in arrival order), the probe detects
`spec.probeRsp` exactly when it occurs as a contiguous substring of the
cumulative buffer of all bytes received so far — including matches that
span chunk boundaries — and it succeeds on the first such match. -/
theorem claim_C1_probe_substring_detection (param : Param) (chunks : List Chunk) :
    (∀ k, probeScan param.probeRsp chunks = some k ↔
        k < chunks.length ∧
        param.probeRsp <:+: (chunks.take (k + 1)).flatten ∧
        ∀ j < k, ¬ param.probeRsp <:+: (chunks.take (j + 1)).flatten) ∧
    (chunks ≠ [] →
      (probeScan param.probeRsp chunks = none ↔
        ¬ param.probeRsp <:+: chunks.flatten)) := by
  constructor
  · intro k
    simpa using probeScanGo_eq_some param.probeRsp chunks [] k
  · intro h
    simpa using probeScanGo_eq_none param.probeRsp chunks [] h

/-- Witness for C1: the response `[1, 2, 3]` split across three chunks is
detected exactly at the third chunk (the match spans all three), and a
stream never containing it is never detected. -/
theorem claim_C1_witness :
    probeScan pEx.probeRsp [[0, 1], [2], [3, 4]] = some 2 ∧
    probeScan pEx.probeRsp [[9], [9]] = none :=
  ⟨((claim_C1_probe_substring_detection pEx [[0, 1], [2], [3, 4]]).1 2).mpr
      (by decide),
   ((claim_C1_probe_substring_detection pEx [[9], [9]]).2 (by decide)).mpr
      (by decide)⟩

/-- The `probe` promise rejects with the timeout message when no data
arrival strictly before the deadline produces an occurrence of `rsp` in
the accumulated buffer. -/
theorem probeTimedGo_timeout (rsp : Chunk) (msg : Str)
    (events : List (Nat × Chunk)) :
    ∀ buffer : Chunk,
      ¬ rsp <:+: buffer ++
        ((events.takeWhile (fun e => decide (e.1 < 500))).map
          (fun e => e.2)).flatten →
      probeTimedGo rsp 500 msg buffer events = .timeout 500 msg := by
  induction events with
  | nil => intro buffer _; rfl
  | cons e rest ih =>
    obtain ⟨t, c⟩ := e
    intro buffer h
    by_cases ht : 500 ≤ t
    · simp [probeTimedGo, ht]
    · have ht' : (decide (t < 500)) = true := by
        simp; omega
      have hstep : ¬ rsp <:+: (buffer ++ c) ++
          ((rest.takeWhile (fun e => decide (e.1 < 500))).map
            (fun e => e.2)).flatten := by
        intro hx
        apply h
        simp only [List.takeWhile_cons, ht', if_true, List.map_cons,
          List.flatten_cons]
        simpa [List.append_assoc] using hx
      have hninc : bufIncludes rsp (buffer ++ c) = false := by
        rcases Bool.eq_false_or_eq_true (bufIncludes rsp (buffer ++ c)) with hb | hb
        · exact absurd (infixGrow ((bufIncludes_iff _ _).mp hb)) hstep
        · exact hb
      simp only [probeTimedGo, if_neg ht, hninc, Bool.false_eq_true, if_false]
      exact ih (buffer ++ c) hstep

/-- Claim C5: whenever the expected response substring never appears in
the inbound bytes accumulated before the deadline, the probe fails with
the timeout at the fixed 500 ms deadline — not earlier — and the failure
message names both the device identity `spec.name` and the port path. -/
theorem claim_C5_probe_timeout (param : Param) (portName : Str)
    (events : List (Nat × Chunk))
    (h : ¬ param.probeRsp <:+:
      ((events.takeWhile (fun e => decide (e.1 < 500))).map
        (fun e => e.2)).flatten) :
    probeTimed param portName events = .timeout 500 (timeoutMsg param portName) ∧
    param.name <:+: timeoutMsg param portName ∧
    portName <:+: timeoutMsg param portName := by
  refine ⟨?_, ?_, ?_⟩
  · exact probeTimedGo_timeout _ _ events [] (by simpa using h)
  · exact ⟨"SerialProber: timeout: ".data,
      " dongle not detected on ".data ++ portName, by simp [timeoutMsg]⟩
  · exact ⟨"SerialProber: timeout: ".data ++ param.name ++
      " dongle not detected on ".data, [], by simp [timeoutMsg]⟩

/-- Witness for C5: a transport that sends only an unrelated byte before
the deadline and the real response only after it yields the timeout
rejection at 500 ms with the code's message. -/
theorem claim_C5_witness :
    probeTimed pEx "/dev/cu.usbserial-1".data [(100, [9]), (600, [1, 2, 3])] =
      .timeout 500 (timeoutMsg pEx "/dev/cu.usbserial-1".data) :=
  (claim_C5_probe_timeout pEx "/dev/cu.usbserial-1".data
    [(100, [9]), (600, [1, 2, 3])] (by decide)).1

/-! ### The lock-retry opener -/

/-- A lock failure below the attempt ceiling schedules a retry whose
pending timer carries the fixed 1000 ms delay. -/
theorem tryToOpenStep_lockHeld_retry (param : Param) (s : ProberState)
    (h : s.lockAttempt + 1 < MAX_OPEN_ATTEMPTS) :
    tryToOpenStep param s .lockHeld =
      .retryScheduled { s with serialPort := some ⟨false⟩,
                               lockAttempt := s.lockAttempt + 1,
                               lockTimer := some 1000 } := by
  have h' : ¬ MAX_OPEN_ATTEMPTS ≤ s.lockAttempt + 1 := by omega
  simp [tryToOpenStep, h']

/-- A lock failure at the attempt ceiling rejects with the lock error. -/
theorem tryToOpenStep_lockHeld_done (param : Param) (s : ProberState)
    (h : MAX_OPEN_ATTEMPTS ≤ s.lockAttempt + 1) :
    tryToOpenStep param s .lockHeld =
      .done (.error .lockTimeout)
        { s with serialPort := some ⟨false⟩,
                 lockAttempt := s.lockAttempt + 1 } := by
  simp [tryToOpenStep, h]

/-- A non-lock open failure rejects immediately with the host error. -/
theorem tryToOpenStep_otherErr (param : Param) (s : ProberState) (m : Str) :
    tryToOpenStep param s (.otherErr m) =
      .done (.error (.openDevice m)) { s with serialPort := some ⟨false⟩ } := rfl

/-- A successful open followed by a successful probe resolves with the
open handle. -/
theorem tryToOpenStep_opened_ok (param : Param) (s : ProberState)
    (events : List (Nat × Chunk)) (t : Nat)
    (h : probeTimed param (s.portName.getD []) events = .ok t) :
    tryToOpenStep param s (.opened events) =
      .done (.ok ⟨true⟩) { s with serialPort := some ⟨true⟩ } := by
  simp [tryToOpenStep, h]

/-- A successful open followed by a probe timeout rejects with the probe
message. -/
theorem tryToOpenStep_opened_fail (param : Param) (s : ProberState)
    (events : List (Nat × Chunk)) (t : Nat) (m : Str)
    (h : probeTimed param (s.portName.getD []) events = .timeout t m) :
    tryToOpenStep param s (.opened events) =
      .done (.error (.probeFail m)) { s with serialPort := some ⟨true⟩ } := by
  simp [tryToOpenStep, h]

/-- Run unfolding: a settling step. -/
theorem tryToOpenRun_cons_done (param : Param) (s : ProberState)
    (o : AttemptOutcome) (rest : List AttemptOutcome)
    (r : Except OpenErr SP) (s1 : ProberState)
    (h : tryToOpenStep param s o = .done r s1) :
    tryToOpenRun param s (o :: rest) = some (r, s1, 1) := by
  simp [tryToOpenRun, h]

/-- Run unfolding: a retry step. -/
theorem tryToOpenRun_cons_retry (param : Param) (s : ProberState)
    (o : AttemptOutcome) (rest : List AttemptOutcome) (s1 : ProberState)
    (h : tryToOpenStep param s o = .retryScheduled s1) :
    tryToOpenRun param s (o :: rest) =
      (tryToOpenRun param (lockTimerFire s1) rest).map
        (fun x => (x.1, x.2.1, x.2.2 + 1)) := by
  simp [tryToOpenRun, h]

/-- Inversion: the only step that schedules a retry is a lock failure
below the ceiling. -/
theorem tryToOpenStep_retry_inv (param : Param) (s s' : ProberState)
    (o : AttemptOutcome)
    (h : tryToOpenStep param s o = .retryScheduled s') :
    s' = { s with serialPort := some ⟨false⟩,
                  lockAttempt := s.lockAttempt + 1,
                  lockTimer := some 1000 } ∧
    s.lockAttempt + 1 < MAX_OPEN_ATTEMPTS := by
  cases o with
  | lockHeld =>
    by_cases h5 : MAX_OPEN_ATTEMPTS ≤ s.lockAttempt + 1
    · rw [tryToOpenStep_lockHeld_done param s h5] at h
      exact absurd h (by simp)
    · rw [tryToOpenStep_lockHeld_retry param s (by omega)] at h
      cases h
      exact ⟨rfl, by omega⟩
  | otherErr m =>
    rw [tryToOpenStep_otherErr] at h
    exact absurd h (by simp)
  | opened events =>
    cases hp : probeTimed param (s.portName.getD []) events with
    | ok t =>
      rw [tryToOpenStep_opened_ok param s events t hp] at h
      exact absurd h (by simp)
    | timeout t m =>
      rw [tryToOpenStep_opened_fail param s events t m hp] at h
      exact absurd h (by simp)

/-- Any settled run makes at most `MAX_OPEN_ATTEMPTS` attempts beyond the
counter it started from, unless it settles on its very first attempt. -/
theorem tryToOpenRun_attempts (param : Param) (outs : List AttemptOutcome) :
    ∀ (s : ProberState) (r : Except OpenErr SP) (s1 : ProberState) (n : Nat),
      tryToOpenRun param s outs = some (r, s1, n) →
      n + s.lockAttempt ≤ MAX_OPEN_ATTEMPTS ∨ n = 1 := by
  induction outs with
  | nil => intro s r s1 n h; simp [tryToOpenRun] at h
  | cons o rest ih =>
    intro s r s1 n h
    cases hstep : tryToOpenStep param s o with
    | done r' s' =>
      rw [tryToOpenRun_cons_done param s o rest r' s' hstep] at h
      simp only [Option.some.injEq, Prod.mk.injEq] at h
      obtain ⟨-, -, hn⟩ := h
      omega
    | retryScheduled s' =>
      obtain ⟨hs', hlt⟩ := tryToOpenStep_retry_inv param s s' o hstep
      rw [tryToOpenRun_cons_retry param s o rest s' hstep] at h
      simp only [Option.map_eq_some'] at h
      obtain ⟨x, hx, hxe⟩ := h
      have hb := ih (lockTimerFire s') x.1 x.2.1 x.2.2 hx
      simp only [Prod.mk.injEq] at hxe
      obtain ⟨-, -, hn⟩ := hxe
      have hla : (lockTimerFire s').lockAttempt = s.lockAttempt + 1 := by
        rw [hs']
        rfl
      rw [hla] at hb
      simp only [MAX_OPEN_ATTEMPTS] at hb hlt ⊢
      omega

/-- Exactly `k` consecutive lock failures reaching the ceiling reject with
the lock error after `k` attempts. -/
theorem tryToOpenRun_replicate_lockTimeout (param : Param) :
    ∀ (k : Nat) (s : ProberState) (rest : List AttemptOutcome),
      1 ≤ k → s.lockAttempt + k = MAX_OPEN_ATTEMPTS →
      ∃ s1, tryToOpenRun param s (List.replicate k .lockHeld ++ rest) =
        some (.error .lockTimeout, s1, k) := by
  intro k
  induction k with
  | zero => intro s rest h1 _; omega
  | succ k ih =>
    intro s rest _ hsum
    by_cases hk : k = 0
    · subst hk
      have h5 : MAX_OPEN_ATTEMPTS ≤ s.lockAttempt + 1 := by omega
      rw [List.replicate_succ, List.cons_append,
        tryToOpenRun_cons_done param s _ _ _ _
          (tryToOpenStep_lockHeld_done param s h5)]
      exact ⟨_, rfl⟩
    · have h5 : s.lockAttempt + 1 < MAX_OPEN_ATTEMPTS := by omega
      rw [List.replicate_succ, List.cons_append,
        tryToOpenRun_cons_retry param s _ _ _
          (tryToOpenStep_lockHeld_retry param s h5)]
      obtain ⟨s1, hs1⟩ := ih
        (lockTimerFire { s with serialPort := some ⟨false⟩,
                                lockAttempt := s.lockAttempt + 1,
                                lockTimer := some 1000 })
        rest (by omega) (by simp [lockTimerFire]; omega)
      exact ⟨s1, by rw [hs1]; rfl⟩

/-- `k` lock failures below the ceiling followed by an open whose probe
succeeds resolve with the open handle after `k + 1` attempts. -/
theorem tryToOpenRun_replicate_ok (param : Param) :
    ∀ (k : Nat) (s : ProberState) (events : List (Nat × Chunk)) (t : Nat)
      (rest : List AttemptOutcome),
      s.lockAttempt + k < MAX_OPEN_ATTEMPTS →
      probeTimed param (s.portName.getD []) events = .ok t →
      ∃ s1, tryToOpenRun param s
          (List.replicate k .lockHeld ++ .opened events :: rest) =
        some (.ok ⟨true⟩, s1, k + 1) := by
  intro k
  induction k with
  | zero =>
    intro s events t rest _ hp
    rw [List.replicate_zero, List.nil_append,
      tryToOpenRun_cons_done param s _ _ _ _
        (tryToOpenStep_opened_ok param s events t hp)]
    exact ⟨_, rfl⟩
  | succ k ih =>
    intro s events t rest hlt hp
    have h5 : s.lockAttempt + 1 < MAX_OPEN_ATTEMPTS := by omega
    rw [List.replicate_succ, List.cons_append,
      tryToOpenRun_cons_retry param s _ _ _
        (tryToOpenStep_lockHeld_retry param s h5)]
    obtain ⟨s1, hs1⟩ := ih
      (lockTimerFire { s with serialPort := some ⟨false⟩,
                              lockAttempt := s.lockAttempt + 1,
                              lockTimer := some 1000 })
      events t rest (by simp [lockTimerFire]; omega)
      (by simpa [lockTimerFire] using hp)
    exact ⟨s1, by rw [hs1]; rfl⟩

/-- `k` lock failures below the ceiling followed by a non-lock failure
reject with the host error after `k + 1` attempts — no further retry. -/
theorem tryToOpenRun_replicate_otherErr (param : Param) :
    ∀ (k : Nat) (s : ProberState) (m : Str) (rest : List AttemptOutcome),
      s.lockAttempt + k < MAX_OPEN_ATTEMPTS →
      ∃ s1, tryToOpenRun param s
          (List.replicate k .lockHeld ++ .otherErr m :: rest) =
        some (.error (.openDevice m), s1, k + 1) := by
  intro k
  induction k with
  | zero =>
    intro s m rest _
    rw [List.replicate_zero, List.nil_append,
      tryToOpenRun_cons_done param s _ _ _ _ (tryToOpenStep_otherErr param s m)]
    exact ⟨_, rfl⟩
  | succ k ih =>
    intro s m rest hlt
    have h5 : s.lockAttempt + 1 < MAX_OPEN_ATTEMPTS := by omega
    rw [List.replicate_succ, List.cons_append,
      tryToOpenRun_cons_retry param s _ _ _
        (tryToOpenStep_lockHeld_retry param s h5)]
    obtain ⟨s1, hs1⟩ := ih
      (lockTimerFire { s with serialPort := some ⟨false⟩,
                              lockAttempt := s.lockAttempt + 1,
                              lockTimer := some 1000 })
      m rest (by simp [lockTimerFire]; omega)
    exact ⟨s1, by rw [hs1]; rfl⟩

/-- `open` unfolded to its `tryToOpen` run. -/
theorem openModel_run (param : Param) (pn : Str) (outs : List AttemptOutcome)
    (s : ProberState) :
    openModel param pn outs s =
      match tryToOpenRun param
          { s with portName := some pn, lockAttempt := 0 } outs with
      | none => none
      | some (.ok sp, s1, n) => some (.ok sp, s1, n)
      | some (.error e, s1, n) => some (.error e, close s1, n) := rfl

/-- `open` run against five straight lock failures: `LockTimeout` after
exactly five attempts, never a sixth. -/
theorem openModel_lockTimeout (param : Param) (pn : Str)
    (rest : List AttemptOutcome) (s : ProberState) :
    ∃ s1, openModel param pn (List.replicate 5 .lockHeld ++ rest) s =
      some (.error .lockTimeout, s1, 5) := by
  obtain ⟨s1, hs1⟩ := tryToOpenRun_replicate_lockTimeout param 5
    { s with portName := some pn, lockAttempt := 0 } rest (by omega)
    (by simp [MAX_OPEN_ATTEMPTS])
  exact ⟨close s1, by rw [openModel_run, hs1]⟩

/-- `open` run against `k < 5` lock failures and then a successful
open+probe: resolves after `k` scheduled retries. -/
theorem openModel_ok (param : Param) (pn : Str) (k : Nat)
    (events : List (Nat × Chunk)) (t : Nat) (rest : List AttemptOutcome)
    (s : ProberState) (hk : k < 5)
    (hp : probeTimed param pn events = .ok t) :
    ∃ s1, openModel param pn
        (List.replicate k .lockHeld ++ .opened events :: rest) s =
      some (.ok ⟨true⟩, s1, k + 1) := by
  obtain ⟨s1, hs1⟩ := tryToOpenRun_replicate_ok param k
    { s with portName := some pn, lockAttempt := 0 } events t rest
    (by simpa [MAX_OPEN_ATTEMPTS] using hk) (by simpa using hp)
  exact ⟨s1, by rw [openModel_run, hs1]⟩

/-- `open` run against `k < 5` lock failures and then a non-lock failure:
rejects with the host error immediately, with no retry after it. -/
theorem openModel_otherErr (param : Param) (pn : Str) (k : Nat) (m : Str)
    (rest : List AttemptOutcome) (s : ProberState) (hk : k < 5) :
    ∃ s1, openModel param pn
        (List.replicate k .lockHeld ++ .otherErr m :: rest) s =
      some (.error (.openDevice m), s1, k + 1) := by
  obtain ⟨s1, hs1⟩ := tryToOpenRun_replicate_otherErr param k
    { s with portName := some pn, lockAttempt := 0 } m rest
    (by simpa [MAX_OPEN_ATTEMPTS] using hk)
  exact ⟨close s1, by rw [openModel_run, hs1]⟩

/-- A settled `open` never makes more than 5 attempts. -/
theorem openModel_attempts (param : Param) (pn : Str)
    (outs : List AttemptOutcome) (s : ProberState) (r : Except OpenErr SP)
    (s1 : ProberState) (n : Nat)
    (h : openModel param pn outs s = some (r, s1, n)) : n ≤ 5 := by
  rw [openModel_run] at h
  cases hr : tryToOpenRun param
      { s with portName := some pn, lockAttempt := 0 } outs with
  | none => rw [hr] at h; simp at h
  | some x =>
    obtain ⟨rx, sx, nx⟩ := x
    have hb := tryToOpenRun_attempts param outs _ rx sx nx hr
    rw [hr] at h
    simp only [MAX_OPEN_ATTEMPTS] at hb
    cases rx with
    | ok sp =>
      simp only [Option.some.injEq, Prod.mk.injEq] at h
      obtain ⟨-, -, hn⟩ := h
      simp at hb
      omega
    | error e =>
      simp only [Option.some.injEq, Prod.mk.injEq] at h
      obtain ⟨-, -, hn⟩ := h
      simp at hb
      omega

/-- Claim C2: for every sequence of open-attempt outcomes, `open` retries
a lock-acquisition failure after a fixed 1000 ms delay, makes at most 5
open attempts in total before failing with the lock timeout (never a
sixth), succeeds after exactly `K` scheduled retries when the lock is held
`K < 5` times and then released, and fails immediately without any retry —
with the host error carried as the cause — when the open fails for any
non-lock reason. -/
theorem claim_C2_lock_retry (param : Param) (pn : Str) :
    (∀ outs s r s1 n, openModel param pn outs s = some (r, s1, n) → n ≤ 5) ∧
    (∀ rest s, ∃ s1,
      openModel param pn (List.replicate 5 .lockHeld ++ rest) s =
        some (.error .lockTimeout, s1, 5)) ∧
    (∀ K, K < 5 → ∀ events t rest s, probeTimed param pn events = .ok t →
      ∃ s1, openModel param pn
          (List.replicate K .lockHeld ++ .opened events :: rest) s =
        some (.ok ⟨true⟩, s1, K + 1)) ∧
    (∀ K, K < 5 → ∀ m rest s,
      ∃ s1, openModel param pn
          (List.replicate K .lockHeld ++ .otherErr m :: rest) s =
        some (.error (.openDevice m), s1, K + 1)) ∧
    (∀ s, s.lockAttempt + 1 < 5 →
      tryToOpenStep param s .lockHeld =
        .retryScheduled { s with serialPort := some ⟨false⟩,
                                 lockAttempt := s.lockAttempt + 1,
                                 lockTimer := some 1000 }) := by
  refine ⟨?_, ?_, ?_, ?_, ?_⟩
  · intro outs s r s1 n h
    exact openModel_attempts param pn outs s r s1 n h
  · intro rest s
    exact openModel_lockTimeout param pn rest s
  · intro K hK events t rest s hp
    exact openModel_ok param pn K events t rest s hK hp
  · intro K hK m rest s
    exact openModel_otherErr param pn K m rest s hK
  · intro s h
    exact tryToOpenStep_lockHeld_retry param s h

/-- Witness for C2: with the lock held five times `open` fails with the
lock timeout after exactly 5 attempts; with the lock held twice and then
released (and a responsive device) it succeeds on the third attempt; a
non-lock error fails on the first attempt. -/
theorem claim_C2_witness :
    (∃ s1, openModel pEx "/dev/cu.usbserial-1".data
        (List.replicate 5 .lockHeld) initSt =
      some (.error .lockTimeout, s1, 5)) ∧
    (∃ s1, openModel pEx "/dev/cu.usbserial-1".data
        (List.replicate 2 .lockHeld ++ .opened [(10, [1, 2, 3])] :: []) initSt =
      some (.ok ⟨true⟩, s1, 3)) ∧
    (∃ s1, openModel pEx "/dev/cu.usbserial-1".data
        (List.replicate 0 .lockHeld ++ .otherErr "Access denied".data :: []) initSt =
      some (.error (.openDevice "Access denied".data), s1, 1)) :=
  ⟨by
      have h := (claim_C2_lock_retry pEx "/dev/cu.usbserial-1".data).2.1 [] initSt
      simpa using h,
   (claim_C2_lock_retry pEx "/dev/cu.usbserial-1".data).2.2.1 2 (by decide)
      [(10, [1, 2, 3])] 10 [] initSt rfl,
   (claim_C2_lock_retry pEx "/dev/cu.usbserial-1".data).2.2.2.1 0 (by decide)
      "Access denied".data [] initSt⟩

/-- On every terminating path, `close` leaves the prober without an open
handle. -/
theorem handleOpen_close (s : ProberState) : handleOpen (close s) = false := by
  cases hb : handleOpen s with
  | false =>
    have hc : close s = s := by simp [close, hb]
    rw [hc]
    exact hb
  | true =>
    have hc : close s = { s with serialPort := none, portName := none } := by
      simp [close, hb]
    rw [hc]
    rfl

/-- Claim C6: on every failing invocation of `open` — lock timeout, host
open error, or probe failure on an already-opened handle — the `.catch`
handler closes the port handle before the error is surfaced, so the caller
never receives a state with an open handle on any failure path. -/
theorem claim_C6_closed_on_failure (param : Param) (pn : Str)
    (outs : List AttemptOutcome) (s : ProberState) (e : OpenErr)
    (s1 : ProberState) (n : Nat)
    (h : openModel param pn outs s = some (.error e, s1, n)) :
    handleOpen s1 = false := by
  rw [openModel_run] at h
  cases hr : tryToOpenRun param
      { s with portName := some pn, lockAttempt := 0 } outs with
  | none => rw [hr] at h; simp at h
  | some x =>
    obtain ⟨rx, sx, nx⟩ := x
    rw [hr] at h
    cases rx with
    | ok sp => simp at h
    | error e' =>
      simp only [Option.some.injEq, Prod.mk.injEq] at h
      obtain ⟨-, hs, -⟩ := h
      rw [← hs]
      exact handleOpen_close sx

/-- Witness for C6: after `open` fails with a host error, the resulting
state holds no open handle. -/
theorem claim_C6_witness :
    handleOpen { portName := some "/dev/cu.usbserial-1".data, lockAttempt := 0,
                 serialPort := some ⟨false⟩, lockTimer := none } = false :=
  claim_C6_closed_on_failure pEx "/dev/cu.usbserial-1".data
    [.otherErr "Access denied".data] initSt
    (.openDevice "Access denied".data)
    { portName := some "/dev/cu.usbserial-1".data, lockAttempt := 0,
      serialPort := some ⟨false⟩, lockTimer := none } 1 rfl

/-- Claim C7 fails on the code (code bug): when a lock retry has been
scheduled, the pending 1000 ms lock-retry timer survives `close` —
`close` (lines 82-89) never clears `this.lockTimer`, so abandoning the
session by calling `close` while a retry is pending leaves the timer
scheduled, and it will fire `tryToOpen` after the session has terminated.
This theorem exhibits the failing run: the first attempt finds the lock
held and schedules a retry; the caller then closes; the retry timer is
still pending afterwards. -/
theorem claim_C7_lock_timer_survives_close :
    tryToOpenStep pEx
        { portName := some "/dev/cu.usbserial-1".data, lockAttempt := 0,
          serialPort := none, lockTimer := none } .lockHeld =
      .retryScheduled
        { portName := some "/dev/cu.usbserial-1".data, lockAttempt := 1,
          serialPort := some ⟨false⟩, lockTimer := some 1000 } ∧
    close { portName := some "/dev/cu.usbserial-1".data, lockAttempt := 1,
            serialPort := some ⟨false⟩, lockTimer := some 1000 } =
      { portName := some "/dev/cu.usbserial-1".data, lockAttempt := 1,
        serialPort := some ⟨false⟩, lockTimer := some 1000 } ∧
    (close { portName := some "/dev/cu.usbserial-1".data, lockAttempt := 1,
             serialPort := some ⟨false⟩,
             lockTimer := some 1000 }).lockTimer = some 1000 :=
  ⟨rfl, rfl, rfl⟩

/-- Claim C9: `close` is idempotent — closing twice leaves the same state
as closing once — and with no open handle it changes nothing and does not
fail. -/
theorem claim_C9_close_idempotent :
    (∀ s : ProberState, close (close s) = close s) ∧
    (∀ s : ProberState, handleOpen s = false → close s = s) := by
  constructor
  · intro s
    by_cases h : handleOpen s = true
    · have h2 : handleOpen { s with serialPort := none, portName := none } = false := by
        simp [handleOpen]
      simp [close, h, h2]
    · simp only [Bool.not_eq_true] at h
      simp [close, h]
  · intro s h
    simp [close, h]

/-- Witness for C9: on a fresh instance with no open handle, `close` is a
no-op. -/
theorem claim_C9_witness : close initSt = initSt :=
  claim_C9_close_idempotent.2 initSt rfl

/-- Claim C10: each invocation of `open` resets the lock-attempt counter
to zero before the first attempt, so the 5-attempt ceiling applies
independently per `open` call: the run of `open` does not depend on the
instance's previous `lockAttempt` value, and after an `open` that
exhausted all 5 attempts, a later `open` on the same instance still
succeeds given `K < 5` lock failures and then a release. -/
theorem claim_C10_lock_attempt_reset (param : Param) (pn pn2 : Str)
    (outs : List AttemptOutcome) (s : ProberState) (la : Nat) :
    (openModel param pn outs { s with lockAttempt := la } =
      openModel param pn outs s) ∧
    (∀ K, K < 5 → ∀ events t rest rest2 r s1 n,
      probeTimed param pn2 events = .ok t →
      openModel param pn (List.replicate 5 .lockHeld ++ rest) s =
        some (r, s1, n) →
      ∃ s2, openModel param pn2
          (List.replicate K .lockHeld ++ .opened events :: rest2) s1 =
        some (.ok ⟨true⟩, s2, K + 1)) := by
  constructor
  · rfl
  · intro K hK events t rest rest2 r s1 n hp _
    exact openModel_ok param pn2 K events t rest2 s1 hK hp

/-- Witness for C10: a stale counter of 3 does not change the result of a
fresh `open`, and after an `open` that failed with the lock timeout
(leaving the counter at 5), an immediately following `open` with a free
lock and responsive device succeeds on its first attempt. -/
theorem claim_C10_witness :
    (openModel pEx "/dev/cu.usbserial-1".data []
        { initSt with lockAttempt := 3 } =
      openModel pEx "/dev/cu.usbserial-1".data [] initSt) ∧
    (∃ s2, openModel pEx "/dev/cu.usbserial-2".data
        (List.replicate 0 .lockHeld ++ .opened [(10, [1, 2, 3])] :: [])
        { portName := some "/dev/cu.usbserial-1".data, lockAttempt := 5,
          serialPort := some ⟨false⟩, lockTimer := none } =
      some (.ok ⟨true⟩, s2, 1)) :=
  ⟨(claim_C10_lock_attempt_reset pEx "/dev/cu.usbserial-1".data
      "/dev/cu.usbserial-2".data [] initSt 3).1,
   (claim_C10_lock_attempt_reset pEx "/dev/cu.usbserial-1".data
      "/dev/cu.usbserial-2".data [] initSt 3).2 0 (by decide)
      [(10, [1, 2, 3])] 10 [] [] (.error .lockTimeout)
      { portName := some "/dev/cu.usbserial-1".data, lockAttempt := 5,
        serialPort := some ⟨false⟩, lockTimer := none } 5 rfl rfl⟩

/-! ### Path normalization and the filter -/

/-- `String.replace` on a string that begins with the pattern substitutes
the replacement for that leading occurrence. -/
theorem jsReplaceFirst_append (pat rep t : Str) :
    jsReplaceFirst pat rep (pat ++ t) = rep ++ t := by
  cases pat with
  | nil =>
    cases t with
    | nil => simp [jsReplaceFirst, List.isPrefixOf]
    | cons c rest => simp [jsReplaceFirst, List.isPrefixOf]
  | cons p ps =>
    have hpre : (p :: ps).isPrefixOf (p :: (ps ++ t)) = true := by
      rw [← List.cons_append]
      simp [ List.isPrefixOf_iff_prefix]
    rw [List.cons_append]
    simp only [jsReplaceFirst, hpre, if_true]
    simp [List.drop_left]

/-- A `/dev/tty.usbXXX` path is rewritten to `/dev/cu.usbXXX`. -/
theorem normalizeComName_tty (t : Str) :
    normalizeComName ("/dev/tty.usb".data ++ t) = "/dev/cu.usb".data ++ t := by
  have hsplit : "/dev/tty.usb".data = "/dev/tty".data ++ ".usb".data := by decide
  have hcu : "/dev/cu.usb".data = "/dev/cu".data ++ ".usb".data := by decide
  have hstart :
      jsStartsWith ("/dev/tty.usb".data ++ t) "/dev/tty.usb".data = true := by
    simp [jsStartsWith, List.isPrefixOf_iff_prefix]
  unfold normalizeComName
  rw [if_pos hstart, hsplit, List.append_assoc, jsReplaceFirst_append, hcu,
    List.append_assoc]

/-- A normalized `/dev/cu.usbXXX` path no longer begins with
`/dev/tty.usb`. -/
theorem jsStartsWith_cu (t : Str) :
    jsStartsWith ("/dev/cu.usb".data ++ t) "/dev/tty.usb".data = false := by
  have h1 : "/dev/tty.usb".data =
      '/' :: 'd' :: 'e' :: 'v' :: '/' :: 't' :: 't' :: 'y' :: '.' :: 'u' ::
        's' :: 'b' :: [] := by decide
  have h2 : "/dev/cu.usb".data =
      '/' :: 'd' :: 'e' :: 'v' :: '/' :: 'c' :: 'u' :: '.' :: 'u' :: 's' ::
        'b' :: [] := by decide
  have h3 : (('t' : Char) == 'c') = false := by decide
  simp [jsStartsWith, h1, h2, List.isPrefixOf, h3]

/-- A path that does not begin with `/dev/tty.usb` is left unchanged. -/
theorem normalizeComName_not (s : Str)
    (h : jsStartsWith s "/dev/tty.usb".data = false) :
    normalizeComName s = s := by
  unfold normalizeComName
  rw [h]
  rfl

/-- Path normalization is idempotent, so the second normalization inside
`serialPortMatchesFilter` changes nothing. -/
theorem normalizeComName_idem (s : Str) :
    normalizeComName (normalizeComName s) = normalizeComName s := by
  cases hb : jsStartsWith s "/dev/tty.usb".data with
  | false => rw [normalizeComName_not s hb, normalizeComName_not s hb]
  | true =>
    have hb' : "/dev/tty.usb".data.isPrefixOf s = true := hb
    obtain ⟨t, rfl⟩ := List.isPrefixOf_iff_prefix.mp hb'
    rw [normalizeComName_tty t]
    exact normalizeComName_not _ (jsStartsWith_cu t)

/-- Descriptor normalization is idempotent. -/
theorem normalizePort_idem (p : Port) :
    normalizePort (normalizePort p) = normalizePort p := by
  simp [normalizePort, normalizeComName_idem]

/-- One key/pattern entry matches exactly when the key is an own property
of the descriptor, its value is a string, and the string matches. -/
theorem keyMatches_iff (p : Port) (kv : Str × Matcher) :
    keyMatches p kv = true ↔
      ∃ s, p.getProp kv.1 = some (.str s) ∧ kv.2 s = true := by
  cases hv : p.getProp kv.1 with
  | none => simp [keyMatches, hv]
  | some v =>
    cases v with
    | str s => simp [keyMatches, hv]
    | other => simp [keyMatches, hv]

/-- Claim C4: for every port descriptor and every filter, the filter match
holds iff some group matches, where a group matches iff every one of its
keys is present on the (normalized) descriptor, holds a string value, and
that string matches the group's pattern; an absent key or a non-string
value makes the whole group non-matching, and a port matching no group is
excluded from the scan and never opened. -/
theorem claim_C4_filter_semantics (param : Param) (p : Port) :
    ((serialPortMatchesFilter param p).1 = true ↔
      ∃ g ∈ param.filter, ∀ kv ∈ g, ∃ s,
        (normalizePort p).getProp kv.1 = some (.str s) ∧ kv.2 s = true) ∧
    (∀ (openFn : Str → Except OpenErr SP) (rest : List Port),
      (serialPortMatchesFilter param p).1 = false →
      probeAllGo param openFn (p :: rest) = probeAllGo param openFn rest) := by
  constructor
  · show matchesGroups param (normalizePort p) = true ↔ _
    rw [matchesGroups, List.any_eq_true]
    constructor
    · rintro ⟨g, hg, hall⟩
      refine ⟨g, hg, ?_⟩
      intro kv hkv
      exact (keyMatches_iff _ kv).mp (List.all_eq_true.mp hall kv hkv)
    · rintro ⟨g, hg, hall⟩
      refine ⟨g, hg, ?_⟩
      rw [List.all_eq_true]
      intro kv hkv
      exact (keyMatches_iff _ kv).mpr (hall kv hkv)
  · intro openFn rest h
    have h1 : matchesGroups param (normalizePort (normalizePort p)) = false := by
      rw [normalizePort_idem]
      exact h
    simp [probeAllGo, serialPortMatchesFilter, h1]

/-- Witness for C4: the FTDI descriptor matches the example filter through
its first group alone, and the descriptor with the wrong vendor and a
non-string `product` matches no group, so the scan skips it without any
open attempt. -/
theorem claim_C4_witness :
    (∃ g ∈ pEx.filter, ∀ kv ∈ g, ∃ s,
      (normalizePort portF).getProp kv.1 = some (.str s) ∧ kv.2 s = true) ∧
    probeAllGo pEx openFnEx (portG :: []) = probeAllGo pEx openFnEx [] :=
  ⟨(claim_C4_filter_semantics pEx portF).1.mp rfl,
   (claim_C4_filter_semantics pEx portG).2 openFnEx [] rfl⟩

/-- Claim C3: `probeAll` swallows any single port's open/probe failure,
excluding that port from the results and continuing with the next
candidate; it returns exactly the successful results in enumeration
order, never rejects because of a single port, and rejects only when the
port enumeration itself fails — in which case that error propagates
directly. -/
theorem claim_C3_probeAll_error_handling (param : Param)
    (openFn : Str → Except OpenErr SP) :
    (∀ e, probeAll param openFn (.error e) = .error e) ∧
    (∀ ports, ∃ rs, probeAll param openFn (.ok ports) = .ok rs) ∧
    (∀ ports, (probeAllGo param openFn ports).1 =
      ports.filterMap (fun p =>
        let q := normalizePort (normalizePort p)
        if matchesGroups param q then
          match openFn q.comName with
          | .ok sp => some ⟨q, sp⟩
          | .error _ => none
        else none)) ∧
    (∀ p pre post m,
      openFn ((serialPortMatchesFilter param (normalizePort p)).2.comName) =
        .error m →
      (probeAllGo param openFn (pre ++ p :: post)).1 =
        (probeAllGo param openFn (pre ++ post)).1) := by
  refine ⟨fun e => rfl, fun ports => ⟨_, rfl⟩, ?_, ?_⟩
  · intro ports
    induction ports with
    | nil => rfl
    | cons p rest ih =>
      cases hm : matchesGroups param (normalizePort (normalizePort p)) with
      | true =>
        cases ho : openFn (normalizePort (normalizePort p)).comName with
        | ok sp =>
          simp [probeAllGo, serialPortMatchesFilter, hm, ho, ih,
            List.filterMap_cons]
        | error m =>
          simp [probeAllGo, serialPortMatchesFilter, hm, ho, ih,
            List.filterMap_cons]
      | false =>
        simp [probeAllGo, serialPortMatchesFilter, hm, ih, List.filterMap_cons]
  · intro p pre post m hofn
    have hofn' : openFn (normalizePort (normalizePort p)).comName = .error m := hofn
    induction pre with
    | nil =>
      cases hm : matchesGroups param (normalizePort (normalizePort p)) with
      | true => simp [probeAllGo, serialPortMatchesFilter, hm, hofn']
      | false => simp [probeAllGo, serialPortMatchesFilter, hm]
    | cons q pre ih =>
      cases hmq : matchesGroups param (normalizePort (normalizePort q)) with
      | true =>
        cases hoq : openFn (normalizePort (normalizePort q)).comName with
        | ok sp =>
          simp only [List.cons_append, probeAllGo, serialPortMatchesFilter,
            hmq, hoq, if_true]
          simp [ih]
        | error m2 =>
          simp only [List.cons_append, probeAllGo, serialPortMatchesFilter,
            hmq, hoq, if_true]
          simp [ih]
      | false =>
        simp only [List.cons_append, probeAllGo, serialPortMatchesFilter,
          hmq]
        simp [ih]

/-- Witness for C3: an enumeration failure propagates verbatim, and a
port that passes the filter but fails to open is dropped from the results
while scanning continues. -/
theorem claim_C3_witness :
    probeAll pEx openFnEx (.error "enumeration failed".data) =
      .error "enumeration failed".data ∧
    (probeAllGo pEx openFnEx (portG :: portT :: portF :: [])).1 =
      (probeAllGo pEx openFnEx (portG :: portF :: [])).1 :=
  ⟨(claim_C3_probeAll_error_handling pEx openFnEx).1 "enumeration failed".data,
   (claim_C3_probeAll_error_handling pEx openFnEx).2.2.2 portT [portG] [portF]
      (.probeFail "timeout".data) rfl⟩

/-- Claim C8: for every enumerated descriptor, a `/dev/tty.usbXXX` path is
rewritten to `/dev/cu.usbXXX` before any filter matching and before any
open, a path not of that form is left unchanged, and in the scan the
filter verdict and the path handed to `open` both come from the same
normalized descriptor. -/
theorem claim_C8_path_normalization (param : Param)
    (openFn : Str → Except OpenErr SP) :
    (∀ t : Str, normalizeComName ("/dev/tty.usb".data ++ t) =
      "/dev/cu.usb".data ++ t) ∧
    (∀ s : Str, jsStartsWith s "/dev/tty.usb".data = false →
      normalizeComName s = s) ∧
    (∀ ports : List Port, (probeAllGo param openFn ports).2 =
      ((ports.map normalizePort).filter (fun q => matchesGroups param q)).map
        (fun q => q.comName)) := by
  refine ⟨normalizeComName_tty, normalizeComName_not, ?_⟩
  intro ports
  induction ports with
  | nil => rfl
  | cons p rest ih =>
    cases hm : matchesGroups param (normalizePort p) with
    | true =>
      have hm2 : matchesGroups param (normalizePort (normalizePort p)) = true := by
        rw [normalizePort_idem]; exact hm
      cases ho : openFn (normalizePort p).comName with
      | ok sp =>
        simp [probeAllGo, serialPortMatchesFilter, hm, hm2, ho, ih,
          normalizePort_idem]
      | error m =>
        simp [probeAllGo, serialPortMatchesFilter, hm, hm2, ho, ih,
          normalizePort_idem]
    | false =>
      have hm2 : matchesGroups param (normalizePort (normalizePort p)) = false := by
        rw [normalizePort_idem]; exact hm
      simp [probeAllGo, serialPortMatchesFilter, hm, hm2, ih]

/-- Witness for C8: a `tty.usb` path is rewritten, a non-matching path is
untouched, and the path opened for the FTDI descriptor is exactly the
normalized filtered path. -/
theorem claim_C8_witness :
    normalizeComName ("/dev/tty.usb".data ++ "ABC".data) =
      "/dev/cu.usb".data ++ "ABC".data ∧
    normalizeComName "/dev/ttyUSB0".data = "/dev/ttyUSB0".data ∧
    (probeAllGo pEx openFnEx (portF :: [])).2 =
      ((([portF].map normalizePort).filter
          (fun q => matchesGroups pEx q)).map (fun q => q.comName)) :=
  ⟨(claim_C8_path_normalization pEx openFnEx).1 "ABC".data,
   (claim_C8_path_normalization pEx openFnEx).2.1 "/dev/ttyUSB0".data
      (by decide),
   (claim_C8_path_normalization pEx openFnEx).2.2 [portF]⟩

end SerialProber
